import Mathlib

/-!
Shallow embedding of the vote-ledger / complaint-workflow / point-economy /
wager engine of `OGbotas.py`.

Modelling conventions, chosen once and used throughout:

* Python `defaultdict` / dict stores are modelled as total functions with the
  dictionary's default as the value of absent keys (`int` default `0`,
  `list` default `[]`, plain dicts as `Option`-valued maps defaulting to
  `none`).  `dict.pop` / `dict.clear` therefore become "reset to default".
* Timestamps are integer seconds (`Int`); `timedelta(days=7)` is `604800`,
  `timedelta(minutes=5)` is `300`, `timedelta(days=30)` is `2592000`.
  The `datetime.min` sentinel used as the default of `last_vote_attempt` and
  `last_downvote_attempt` is modelled as `none` (meaning: cooldown passes).
* Python floor division `//` is used in the source only on a positive
  numerator and denominator, where it agrees with `Int` division in Lean.
* `random.choice([initiator_id, user_id])` is modelled by an explicit boolean
  oracle argument `coin` (`true` = initiator wins), covering both outcomes.
* Telegram I/O (replies, stickers, message deletion jobs) has no effect on
  the engine state and is elided; the scheduler's `run_once(expire_challenge,
  300, ...)` call is recorded in the `scheduled_expiries` field.
-/

/-- Point update of a total map. -/
def fupd {α β : Type} [DecidableEq α] (f : α → β) (k : α) (v : β) : α → β :=
  fun x => if x = k then v else f x

@[simp] theorem fupd_same {α β : Type} [DecidableEq α] (f : α → β) (k : α) (v : β) :
    fupd f k v k = v := by
  simp [fupd]

@[simp] theorem fupd_other {α β : Type} [DecidableEq α] (f : α → β) (k : α) (v : β)
    {x : α} (h : x ≠ k) : fupd f k v x = f x := by
  simp [fupd, h]

/-- Direction of a vote event (the `"up"` / `"down"` strings of the source). -/
inductive VoteDir
  | up
  | down
deriving DecidableEq

/-- A pending/approved complaint entry: `(vendor, user_id, reason, timestamp)`. -/
abbrev PendingEntry := String × Nat × String × Int

/-- A `vote_history` entry: `(user_id, direction, reason, timestamp)`. -/
abbrev HistEntry := Nat × VoteDir × String × Int

/-- A coinflip challenge, the tuple stored in `coinflip_challenges[target_id]`:
`(initiator_id, amount, timestamp, initiator_username, opponent_tag, chat_id)`. -/
structure Challenge where
  initiator : Nat
  amount : Int
  createdAt : Int
  initiatorUsername : String
  opponentTag : String
  chat : Int
deriving DecidableEq

/-- The global mutable state of the bot (the module-level dicts of the source). -/
structure BotState where
  trusted_sellers : List String
  votes_weekly : String → Int
  votes_monthly : String → List (Int × Int)
  votes_alltime : String → Int
  voters : List Nat
  downvoters : List Nat
  pending_downvotes : Nat → Option PendingEntry
  approved_downvotes : Nat → Option PendingEntry
  vote_history : String → List HistEntry
  last_vote_attempt : Nat → Option Int
  last_downvote_attempt : Nat → Option Int
  complaint_id : Nat
  user_points : Nat → Int
  coinflip_challenges : Nat → Option Challenge
  username_to_id : String → Option Nat
  scheduled_expiries : List (Nat × Int)

/-- The initial state of the data structures at module load (fresh deployment,
no pickle files present). -/
def initState : BotState :=
  { trusted_sellers := ["@Seller1", "@Seller2", "@Seller3"]
    votes_weekly := fun _ => 0
    votes_monthly := fun _ => []
    votes_alltime := fun _ => 0
    voters := []
    downvoters := []
    pending_downvotes := fun _ => none
    approved_downvotes := fun _ => none
    vote_history := fun _ => []
    last_vote_attempt := fun _ => none
    last_downvote_attempt := fun _ => none
    complaint_id := 0
    user_points := fun _ => 0
    coinflip_challenges := fun _ => none
    username_to_id := fun _ => none
    scheduled_expiries := [] }

/-- Vendor-tag normalization used by `nepatiko`, `addseller`, `removeseller`,
`pridetitaskus`: prepend `'@'` when missing. -/
def normTag (v : String) : String :=
  if v.data.head? = some '@' then v else "@" ++ v

/-- Lower-casing of a username, as in `opponent.lower()` (executable model of
Python `str.lower` for the ASCII tags used here). -/
def lowerStr (v : String) : String :=
  ⟨v.data.map Char.toLower⟩

/-- Failure outcomes of the upvote button handler. -/
inductive VoteError
  | unknownSeller
  | cooldownActive (daysRemaining : Int)
deriving DecidableEq

/-- State after a successful button upvote (`handle_vote_button`, lines
428-458 of the source). -/
def voteSucc (s : BotState) (voter : Nat) (seller : String) (now : Int) : BotState :=
  { s with
    votes_weekly := fupd s.votes_weekly seller (s.votes_weekly seller + 1)
    votes_monthly := fupd s.votes_monthly seller (s.votes_monthly seller ++ [(now, 1)])
    votes_alltime := fupd s.votes_alltime seller (s.votes_alltime seller + 1)
    voters := s.voters.insert voter
    vote_history := fupd s.vote_history seller
      (s.vote_history seller ++ [(voter, VoteDir.up, "Button vote", now)])
    user_points := fupd s.user_points voter (s.user_points voter + 5)
    last_vote_attempt := fupd s.last_vote_attempt voter (some now) }

/-- `handle_vote_button`: seller-registration check, 7-day cooldown check with
`days_left = max(1, int(cooldown_remaining.total_seconds() // 86400))`, then
the success mutations. -/
def handle_vote_button (s : BotState) (voter : Nat) (seller : String) (now : Int) :
    Except VoteError BotState :=
  if seller ∈ s.trusted_sellers then
    match s.last_vote_attempt voter with
    | some last =>
      if 604800 - (now - last) > 0 then
        Except.error (VoteError.cooldownActive (max 1 ((604800 - (now - last)) / 86400)))
      else
        Except.ok (voteSucc s voter seller now)
    | none => Except.ok (voteSucc s voter seller now)
  else
    Except.error VoteError.unknownSeller

/-- The state after `handle_vote_button`; the failure paths of the source do
not mutate engine state. -/
def voteRun (s : BotState) (voter : Nat) (seller : String) (now : Int) : BotState :=
  match handle_vote_button s voter seller now with
  | Except.ok s1 => s1
  | Except.error _ => s

/-- Failure outcomes of `/nepatiko` (complaint filing). -/
inductive ComplaintError
  | cooldownActive
  | missingReason
deriving DecidableEq

/-- The complaint-filing cooldown test of `nepatiko`:
`now - last_downvote_attempt[user_id] < timedelta(days=7)`. -/
def complaintCooldownActive (s : BotState) (user : Nat) (now : Int) : Bool :=
  match s.last_downvote_attempt user with
  | some last => decide (now - last < 604800)
  | none => false

/-- State after a successful complaint filing (`nepatiko`, lines 561-567),
with `vendor` already normalized.  The new complaint id is
`s.complaint_id + 1`. -/
def nepatikoSucc (s : BotState) (user : Nat) (vendor reason : String) (now : Int) : BotState :=
  { s with
    complaint_id := s.complaint_id + 1
    pending_downvotes := fupd s.pending_downvotes (s.complaint_id + 1)
      (some (vendor, user, reason, now))
    downvoters := s.downvoters.insert user
    vote_history := fupd s.vote_history vendor
      (s.vote_history vendor ++ [(user, VoteDir.down, reason, now)])
    user_points := fupd s.user_points user (s.user_points user + 5)
    last_downvote_attempt := fupd s.last_downvote_attempt user (some now) }

/-- `nepatiko` (file a complaint): cooldown check, vendor normalization,
non-empty reason check, then id allocation and the success mutations.
Returns the allocated complaint id together with the new state. -/
def nepatiko (s : BotState) (user : Nat) (vendor reason : String) (now : Int) :
    Except ComplaintError (Nat × BotState) :=
  if complaintCooldownActive s user now then
    Except.error ComplaintError.cooldownActive
  else if reason = "" then
    Except.error ComplaintError.missingReason
  else
    Except.ok (s.complaint_id + 1, nepatikoSucc s user (normTag vendor) reason now)

/-- Id allocated by a `nepatiko` call, if it succeeded. -/
def allocatedId : Except ComplaintError (Nat × BotState) → Option Nat
  | Except.ok (cid, _) => some cid
  | Except.error _ => none

/-- Failure outcome of `/approve` (spec taxonomy name `UnknownEntity`;
source message "Neteisingas skundo ID!"). -/
inductive ApproveError
  | unknownEntity
deriving DecidableEq

/-- State after a successful approval of pending complaint `cid` with entry
`(vendor, user, reason, ts)` (`approve`, lines 595-600): tallies decremented,
monthly entry back-dated to the filing timestamp `ts`, complaint moved from
pending to approved. -/
def approveSucc (s : BotState) (cid : Nat) (vendor : String) (user : Nat)
    (reason : String) (ts : Int) : BotState :=
  { s with
    votes_weekly := fupd s.votes_weekly vendor (s.votes_weekly vendor - 1)
    votes_monthly := fupd s.votes_monthly vendor (s.votes_monthly vendor ++ [(ts, -1)])
    votes_alltime := fupd s.votes_alltime vendor (s.votes_alltime vendor - 1)
    approved_downvotes := fupd s.approved_downvotes cid (some (vendor, user, reason, ts))
    pending_downvotes := fupd s.pending_downvotes cid none }

/-- `approve ComplaintID`: fails when the id is not pending, otherwise applies
the -1 deltas. -/
def approve (s : BotState) (cid : Nat) : Except ApproveError BotState :=
  match s.pending_downvotes cid with
  | none => Except.error ApproveError.unknownEntity
  | some (vendor, user, reason, ts) => Except.ok (approveSucc s cid vendor user reason ts)

/-- The state after `approve`; the failure path does not mutate state. -/
def approveRun (s : BotState) (cid : Nat) : BotState :=
  match approve s cid with
  | Except.ok s1 => s1
  | Except.error _ => s

/-- `addseller`: duplicate registration is refused, otherwise the normalized
tag is appended to the roster. -/
def addseller (s : BotState) (vendor : String) : Except Unit BotState :=
  if normTag vendor ∈ s.trusted_sellers then
    Except.error ()
  else
    Except.ok { s with trusted_sellers := s.trusted_sellers ++ [normTag vendor] }

/-- State after a successful `removeseller v`: the tag leaves the roster and
`votes_weekly.pop` / `votes_monthly.pop` / `votes_alltime.pop` delete the
seller's tally keys (reset to the dict default in this model). -/
def removesellerSucc (s : BotState) (v : String) : BotState :=
  { s with
    trusted_sellers := s.trusted_sellers.erase v
    votes_weekly := fupd s.votes_weekly v 0
    votes_monthly := fupd s.votes_monthly v []
    votes_alltime := fupd s.votes_alltime v 0 }

/-- `removeseller`: unknown tags are refused. -/
def removeseller (s : BotState) (vendor : String) : Except Unit BotState :=
  if normTag vendor ∈ s.trusted_sellers then
    Except.ok (removesellerSucc s (normTag vendor))
  else
    Except.error ()

/-- State after a successful `pridetitaskus` (admin adjustment of a seller's
all-time tally by an arbitrary signed amount). -/
def pridetitaskusSucc (s : BotState) (v : String) (amount : Int) : BotState :=
  { s with votes_alltime := fupd s.votes_alltime v (s.votes_alltime v + amount) }

/-- `pridetitaskus @Seller Amount`: admin-only adjustment
`votes_alltime[seller] += amount`, refused for unregistered sellers. -/
def pridetitaskus (s : BotState) (seller : String) (amount : Int) : Except Unit BotState :=
  if normTag seller ∈ s.trusted_sellers then
    Except.ok (pridetitaskusSucc s (normTag seller) amount)
  else
    Except.error ()

/-- The weekly `reset_votes` job (lines 975-984): clears weekly tallies, both
voter sets, pending complaints and upvote cooldowns, and zeroes the complaint
id counter.  Everything else is untouched. -/
def reset_votes (s : BotState) : BotState :=
  { s with
    votes_weekly := fun _ => 0
    voters := []
    downvoters := []
    pending_downvotes := fun _ => none
    last_vote_attempt := fun _ => none
    complaint_id := 0 }

/-- Failure outcomes of the `/coinflip` proposal. -/
inductive CoinflipError
  | invalidAmount
  | invalidTarget
  | targetInsufficient
deriving DecidableEq

/-- State after a successful `/coinflip` proposal: the challenge is stored
keyed by the resolved target id (silently overwriting any previous challenge
for that target), and an expiry callback is scheduled for `now + 300`. -/
def coinflipSucc (s : BotState) (initiator : Nat) (initiatorUsername : String)
    (amount : Int) (opponent : String) (tid : Nat) (now chat : Int) : BotState :=
  { s with
    coinflip_challenges := fupd s.coinflip_challenges tid
      (some ⟨initiator, amount, now, initiatorUsername, opponent, chat⟩)
    scheduled_expiries := s.scheduled_expiries ++ [(tid, now + 300)] }

/-- `coinflip Amount Opponent`: amount/self/balance checks in source order
(`tid = 0` models the falsiness check `if not target_id`), then the store and
the scheduling of the expiry callback. -/
def coinflip (s : BotState) (initiator : Nat) (initiatorUsername : String)
    (amount : Int) (opponent : String) (now chat : Int) : Except CoinflipError BotState :=
  if amount ≤ 0 ∨ s.user_points initiator < amount then
    Except.error CoinflipError.invalidAmount
  else
    match s.username_to_id (lowerStr opponent) with
    | none => Except.error CoinflipError.invalidTarget
    | some tid =>
      if tid = 0 ∨ opponent = initiatorUsername then
        Except.error CoinflipError.invalidTarget
      else if s.user_points tid < amount then
        Except.error CoinflipError.targetInsufficient
      else
        Except.ok (coinflipSucc s initiator initiatorUsername amount opponent tid now chat)

/-- The state after `coinflip`; failure paths do not mutate state. -/
def coinflipRun (s : BotState) (initiator : Nat) (initiatorUsername : String)
    (amount : Int) (opponent : String) (now chat : Int) : BotState :=
  match coinflip s initiator initiatorUsername amount opponent now chat with
  | Except.ok s1 => s1
  | Except.error _ => s

/-- Outcome of an `/accept_coinflip` attempt. -/
inductive AcceptOutcome
  | noChallenge
  | expiredOrWrongChat
  | resolved (winner : Nat)
deriving DecidableEq

/-- The two sequential balance mutations plus the challenge deletion of a
resolved coinflip (`coin = true` means `random.choice` picked the
initiator). -/
def acceptResolveSucc (s : BotState) (user : Nat) (c : Challenge) (coin : Bool) : BotState :=
  { s with
    user_points :=
      (fun p1 =>
        if coin then fupd p1 user (p1 user - c.amount)
        else fupd p1 c.initiator (p1 c.initiator - c.amount))
      (if coin then fupd s.user_points c.initiator (s.user_points c.initiator + c.amount)
       else fupd s.user_points user (s.user_points user + c.amount))
    coinflip_challenges := fupd s.coinflip_challenges user none }

/-- `accept_coinflip`: no-challenge check; expiry/wrong-chat check (which
deletes the challenge as a side effect); otherwise random resolution with
the zero-sum transfer and challenge deletion. -/
def accept_coinflip (s : BotState) (user : Nat) (now chat : Int) (coin : Bool) :
    AcceptOutcome × BotState :=
  match s.coinflip_challenges user with
  | none => (AcceptOutcome.noChallenge, s)
  | some c =>
    if now - c.createdAt > 300 ∨ chat ≠ c.chat then
      (AcceptOutcome.expiredOrWrongChat,
        { s with coinflip_challenges := fupd s.coinflip_challenges user none })
    else
      (AcceptOutcome.resolved (if coin then c.initiator else user),
        acceptResolveSucc s user c coin)

/-- `expire_challenge` callback: delete whatever challenge is currently
stored for the target, if any. -/
def expire_challenge (s : BotState) (target : Nat) : BotState :=
  match s.coinflip_challenges target with
  | none => s
  | some _ => { s with coinflip_challenges := fupd s.coinflip_challenges target none }

/-- The operations on the seller tallies considered by the all-time-tally
invariant: upvotes, complaint filings and approvals, admin adjustments,
roster changes, and the weekly reset. -/
inductive BotOp
  | upvote (voter : Nat) (seller : String) (now : Int)
  | fileComplaint (user : Nat) (vendor reason : String) (now : Int)
  | approveC (cid : Nat)
  | adminAdjust (seller : String) (amount : Int)
  | addSellerOp (vendor : String)
  | removeSellerOp (vendor : String)
  | weeklyReset

/-- Bot state instrumented with ghost accounting for the all-time tally:
`deltaSum S` is the signed sum of approved vote deltas (+1 per successful
upvote, -1 per approved complaint) applied to `S` since the seller's tallies
were last removed, and `adjSum S` the corresponding sum of admin
adjustments. -/
structure GTally where
  base : BotState
  deltaSum : String → Int
  adjSum : String → Int

/-- One operation applied to the instrumented state.  The underlying state
moves exactly as the source handlers move it (failed handlers change
nothing); the ghost sums record each applied vote delta and adjustment. -/
def applyOpG (g : GTally) : BotOp → GTally
  | BotOp.upvote v se now =>
    match handle_vote_button g.base v se now with
    | Except.error _ => g
    | Except.ok s1 =>
      { base := s1
        deltaSum := fupd g.deltaSum se (g.deltaSum se + 1)
        adjSum := g.adjSum }
  | BotOp.fileComplaint u ve r now =>
    match nepatiko g.base u ve r now with
    | Except.error _ => g
    | Except.ok (_, s1) => { g with base := s1 }
  | BotOp.approveC cid =>
    match g.base.pending_downvotes cid with
    | none => g
    | some (v, u, r, ts) =>
      { base := approveSucc g.base cid v u r ts
        deltaSum := fupd g.deltaSum v (g.deltaSum v - 1)
        adjSum := g.adjSum }
  | BotOp.adminAdjust se amt =>
    match pridetitaskus g.base se amt with
    | Except.error _ => g
    | Except.ok s1 =>
      { base := s1
        deltaSum := g.deltaSum
        adjSum := fupd g.adjSum (normTag se) (g.adjSum (normTag se) + amt) }
  | BotOp.addSellerOp v =>
    match addseller g.base v with
    | Except.error _ => g
    | Except.ok s1 => { g with base := s1 }
  | BotOp.removeSellerOp v =>
    match removeseller g.base v with
    | Except.error _ => g
    | Except.ok s1 =>
      { base := s1
        deltaSum := fupd g.deltaSum (normTag v) 0
        adjSum := fupd g.adjSum (normTag v) 0 }
  | BotOp.weeklyReset => { g with base := reset_votes g.base }

/-- Instrumented initial state: fresh deployment, zero ghost sums. -/
def gInit : GTally :=
  { base := initState, deltaSum := fun _ => 0, adjSum := fun _ => 0 }

/-- Run a sequence of operations from the instrumented initial state. -/
def runOpsG (ops : List BotOp) : GTally :=
  ops.foldl applyOpG gInit

/-- The all-time tally invariant relating the state to the ghost sums. -/
def tallyInv (g : GTally) : Prop :=
  ∀ S, g.base.votes_alltime S = g.deltaSum S + g.adjSum S

/-- How a ghost-tracked challenge instance was removed from the store. -/
inductive RemovalCause
  | overwritten
  | acceptedResolved
  | acceptFailedDeleted
  | expiryCbDeleted
deriving DecidableEq

/-- Bot state instrumented with ghost identities for coinflip challenge
instances: each successful proposal creates a fresh instance id `nextInst`;
`stored t` is the id of the instance currently stored for target `t`; every
removal of a stored instance is logged (most recent first) with its cause. -/
structure GhostCF where
  base : BotState
  nextInst : Nat
  stored : Nat → Option Nat
  removals : List (Nat × RemovalCause)

/-- Events that can touch the challenge store: a proposal, an acceptance
attempt, and the firing of a scheduled expiry callback (which deletes
whatever challenge is stored for its target at firing time). -/
inductive CFEvent
  | propose (initiator : Nat) (initiatorUsername : String) (amount : Int)
      (opponent : String) (now chat : Int)
  | accept (user : Nat) (now chat : Int) (coin : Bool)
  | expireCb (target : Nat)

/-- Ghost bookkeeping of a successful proposal targeting `tid` with new base
state `s1`: a fresh instance id is stored for `tid`, and a previously stored
instance -- silently overwritten by the source's
`coinflip_challenges[target_id] = ...` -- is logged as removed by
overwrite. -/
def ghostApplyStore (g : GhostCF) (s1 : BotState) (tid : Nat) : GhostCF :=
  { base := s1
    nextInst := g.nextInst + 1
    stored := fupd g.stored tid (some g.nextInst)
    removals :=
      (match g.stored tid with
       | some old => [(old, RemovalCause.overwritten)]
       | none => []) ++ g.removals }

/-- Ghost bookkeeping of the deletion of the instance `i` stored for target
`t`, with new base state `s1` and removal cause `c`. -/
def ghostRemove (g : GhostCF) (s1 : BotState) (t i : Nat) (c : RemovalCause) : GhostCF :=
  { base := s1
    nextInst := g.nextInst
    stored := fupd g.stored t none
    removals := (i, c) :: g.removals }

/-- One event applied to the instrumented state.  The underlying state moves
exactly as `coinflip` / `accept_coinflip` / `expire_challenge` move it; the
ghost layer allocates instance ids and logs removals. -/
def ghostStep (g : GhostCF) : CFEvent → GhostCF
  | CFEvent.propose i iu a o now chat =>
    match coinflip g.base i iu a o now chat with
    | Except.error _ => g
    | Except.ok s1 =>
      match g.base.username_to_id (lowerStr o) with
      | none => { g with base := s1 }
      | some tid => ghostApplyStore g s1 tid
  | CFEvent.accept u now chat coin =>
    match (accept_coinflip g.base u now chat coin).1, g.stored u with
    | AcceptOutcome.resolved _, some i =>
      ghostRemove g (accept_coinflip g.base u now chat coin).2 u i
        RemovalCause.acceptedResolved
    | AcceptOutcome.expiredOrWrongChat, some i =>
      ghostRemove g (accept_coinflip g.base u now chat coin).2 u i
        RemovalCause.acceptFailedDeleted
    | _, _ => { g with base := (accept_coinflip g.base u now chat coin).2 }
  | CFEvent.expireCb t =>
    match g.base.coinflip_challenges t, g.stored t with
    | some _, some i =>
      ghostRemove g (expire_challenge g.base t) t i RemovalCause.expiryCbDeleted
    | _, _ => { g with base := expire_challenge g.base t }

/-- Instrumented start: no instances yet. -/
def ghostInit (s : BotState) : GhostCF :=
  { base := s, nextInst := 0, stored := fun _ => none, removals := [] }

/-- Run a sequence of coinflip events from a given bot state. -/
def ghostRunFrom (s : BotState) (evs : List CFEvent) : GhostCF :=
  evs.foldl ghostStep (ghostInit s)

/-- Ids of the removed instances. -/
def removedIds (g : GhostCF) : List Nat :=
  g.removals.map Prod.fst

/-- Resolution accounting for challenge instances: ids are allocated below
`nextInst` and held by at most one target; no instance is removed twice;
a stored instance has not been removed; and every allocated instance is
either still stored or appears exactly once in the removal log. -/
structure CFInv (g : GhostCF) : Prop where
  stored_lt : ∀ t i, g.stored t = some i → i < g.nextInst
  stored_inj : ∀ t1 t2 i, g.stored t1 = some i → g.stored t2 = some i → t1 = t2
  removed_lt : ∀ i, i ∈ removedIds g → i < g.nextInst
  removed_nodup : (removedIds g).Nodup
  stored_not_removed : ∀ t i, g.stored t = some i → i ∉ removedIds g
  accounted : ∀ i, i < g.nextInst → (∃ t, g.stored t = some i) ∨ i ∈ removedIds g

/-- A base state for concrete wager runs: everyone holds 100 points and the
handle `"@bob"` resolves to user id 2. -/
def cfDemoState : BotState :=
  { initState with
    username_to_id := fupd (fun _ => none) "@bob" (some 2)
    user_points := fun _ => 100 }

/-- Concrete event run: user 1 challenges `@bob`, user 3 then challenges
`@bob` (overwriting instance 0), and `@bob` accepts (resolving instance 1). -/
def cfDemoEvents : List CFEvent :=
  [ CFEvent.propose 1 "@alice" 10 "@bob" 0 5
  , CFEvent.propose 3 "@carol" 10 "@bob" 50 5
  , CFEvent.accept 2 100 5 true ]

/-- The state reached after the first concrete proposal. -/
def cfAfterPropose : BotState :=
  coinflipSucc cfDemoState 1 "@alice" 10 "@bob" 2 0 5

/-- A base state where target user 2 holds fewer points than the wager. -/
def c10State : BotState :=
  { initState with
    username_to_id := fupd (fun _ => none) "@bob" (some 2)
    user_points := fun u => if u = 2 then 5 else 100 }

/-- Inversion: a successful button vote always produces the `voteSucc`
state. -/
theorem handle_vote_button_ok {s : BotState} {v : Nat} {se : String} {now : Int}
    {s1 : BotState} (h : handle_vote_button s v se now = Except.ok s1) :
    s1 = voteSucc s v se now := by
  unfold handle_vote_button at h
  split at h
  · split at h
    · split at h
      · simp at h
      · simp only [Except.ok.injEq] at h
        exact h.symm
    · simp only [Except.ok.injEq] at h
      exact h.symm
  · simp at h

/-- Inversion: a successful complaint filing allocates id
`s.complaint_id + 1` and produces the `nepatikoSucc` state for the
normalized vendor tag. -/
theorem nepatiko_ok {s : BotState} {u : Nat} {ve r : String} {now : Int}
    {cid : Nat} {s1 : BotState} (h : nepatiko s u ve r now = Except.ok (cid, s1)) :
    cid = s.complaint_id + 1 ∧ s1 = nepatikoSucc s u (normTag ve) r now := by
  unfold nepatiko at h
  split at h
  · simp at h
  · split at h
    · simp at h
    · simp only [Except.ok.injEq, Prod.mk.injEq] at h
      exact ⟨h.1.symm, h.2.symm⟩

/-- Inversion: a successful admin tally adjustment produces the
`pridetitaskusSucc` state. -/
theorem pridetitaskus_ok {s : BotState} {se : String} {a : Int} {s1 : BotState}
    (h : pridetitaskus s se a = Except.ok s1) :
    s1 = pridetitaskusSucc s (normTag se) a := by
  unfold pridetitaskus at h
  split at h
  · simp only [Except.ok.injEq] at h
    exact h.symm
  · simp at h

/-- Inversion: a successful seller removal produces the `removesellerSucc`
state. -/
theorem removeseller_ok {s : BotState} {ve : String} {s1 : BotState}
    (h : removeseller s ve = Except.ok s1) :
    s1 = removesellerSucc s (normTag ve) := by
  unfold removeseller at h
  split at h
  · simp only [Except.ok.injEq] at h
    exact h.symm
  · simp at h

/-- Inversion: a successful seller addition only appends to the roster. -/
theorem addseller_ok {s : BotState} {ve : String} {s1 : BotState}
    (h : addseller s ve = Except.ok s1) :
    s1 = { s with trusted_sellers := s.trusted_sellers ++ [normTag ve] } := by
  unfold addseller at h
  split at h
  · simp at h
  · simp only [Except.ok.injEq] at h
    exact h.symm

/-- C7: the weekly vote reset clears the weekly tallies, the voter and
downvoter sets, all pending complaints and all upvote cooldown timestamps,
and zeroes the complaint-id counter, while leaving approved complaints,
monthly delta sequences, all-time tallies and user point balances
unchanged. -/
theorem weekly_reset_frame (s : BotState) :
    (∀ S, (reset_votes s).votes_weekly S = 0) ∧
    (reset_votes s).voters = [] ∧
    (reset_votes s).downvoters = [] ∧
    (∀ cid, (reset_votes s).pending_downvotes cid = none) ∧
    (∀ u, (reset_votes s).last_vote_attempt u = none) ∧
    (reset_votes s).complaint_id = 0 ∧
    (reset_votes s).approved_downvotes = s.approved_downvotes ∧
    (reset_votes s).votes_monthly = s.votes_monthly ∧
    (reset_votes s).votes_alltime = s.votes_alltime ∧
    (reset_votes s).user_points = s.user_points := by
  refine ⟨fun S => rfl, rfl, rfl, fun cid => rfl, fun u => rfl, rfl, rfl, rfl, rfl, rfl⟩

/-- C4: approving a pending complaint once decrements the target seller's
weekly and all-time tallies by 1, appends a `(filing timestamp, -1)` entry
to the monthly sequence (back-dated), moves the complaint from pending to
approved; a second approval of the same id fails with `unknownEntity` and
leaves the whole state (in particular all tallies) unchanged. -/
theorem approve_once (s : BotState) (cid : Nat) (v : String) (u : Nat) (r : String)
    (ts : Int) (hp : s.pending_downvotes cid = some (v, u, r, ts)) :
    approve s cid = Except.ok (approveSucc s cid v u r ts) ∧
    (approveSucc s cid v u r ts).votes_weekly v = s.votes_weekly v - 1 ∧
    (approveSucc s cid v u r ts).votes_alltime v = s.votes_alltime v - 1 ∧
    (approveSucc s cid v u r ts).votes_monthly v = s.votes_monthly v ++ [(ts, -1)] ∧
    (approveSucc s cid v u r ts).approved_downvotes cid = some (v, u, r, ts) ∧
    (approveSucc s cid v u r ts).pending_downvotes cid = none ∧
    approve (approveSucc s cid v u r ts) cid = Except.error ApproveError.unknownEntity ∧
    approveRun (approveSucc s cid v u r ts) cid = approveSucc s cid v u r ts := by
  have h1 : approve s cid = Except.ok (approveSucc s cid v u r ts) := by
    unfold approve
    rw [hp]
  have h2 : (approveSucc s cid v u r ts).pending_downvotes cid = none := by
    simp [approveSucc]
  have h3 : approve (approveSucc s cid v u r ts) cid =
      Except.error ApproveError.unknownEntity := by
    unfold approve
    rw [h2]
  refine ⟨h1, by simp [approveSucc], by simp [approveSucc], by simp [approveSucc],
    by simp [approveSucc], h2, h3, ?_⟩
  unfold approveRun
  rw [h3]

/-- Witness for C4 at a concrete pending complaint (complaint 1 against
`"@v1"` filed by user 7 at time 100 from the initial state). -/
theorem approve_once_witness :
    approve (nepatikoSucc initState 7 "@v1" "r1" 100) 1 =
      Except.ok (approveSucc (nepatikoSucc initState 7 "@v1" "r1" 100) 1 "@v1" 7 "r1" 100) ∧
    (approveSucc (nepatikoSucc initState 7 "@v1" "r1" 100) 1 "@v1" 7 "r1" 100).votes_weekly "@v1" =
      (nepatikoSucc initState 7 "@v1" "r1" 100).votes_weekly "@v1" - 1 ∧
    (approveSucc (nepatikoSucc initState 7 "@v1" "r1" 100) 1 "@v1" 7 "r1" 100).votes_alltime "@v1" =
      (nepatikoSucc initState 7 "@v1" "r1" 100).votes_alltime "@v1" - 1 ∧
    (approveSucc (nepatikoSucc initState 7 "@v1" "r1" 100) 1 "@v1" 7 "r1" 100).votes_monthly "@v1" =
      (nepatikoSucc initState 7 "@v1" "r1" 100).votes_monthly "@v1" ++ [(100, -1)] ∧
    (approveSucc (nepatikoSucc initState 7 "@v1" "r1" 100) 1 "@v1" 7 "r1" 100).approved_downvotes 1 =
      some ("@v1", 7, "r1", 100) ∧
    (approveSucc (nepatikoSucc initState 7 "@v1" "r1" 100) 1 "@v1" 7 "r1" 100).pending_downvotes 1 =
      none ∧
    approve (approveSucc (nepatikoSucc initState 7 "@v1" "r1" 100) 1 "@v1" 7 "r1" 100) 1 =
      Except.error ApproveError.unknownEntity ∧
    approveRun (approveSucc (nepatikoSucc initState 7 "@v1" "r1" 100) 1 "@v1" 7 "r1" 100) 1 =
      approveSucc (nepatikoSucc initState 7 "@v1" "r1" 100) 1 "@v1" 7 "r1" 100 :=
  approve_once (nepatikoSucc initState 7 "@v1" "r1" 100) 1 "@v1" 7 "r1" 100 (by decide)

/-- C5: after a successful upvote at time `t0`, any button upvote attempt by
the same voter for a registered seller at a time `t` with `t - t0 < 7` days
fails with `cooldownActive` carrying
`daysRemaining = max 1 (floor(secondsRemaining / 86400))` for
`secondsRemaining = 604800 - (t - t0)`, and the failed attempt leaves the
whole state (all tallies, the voter's points, `lastVoteAt`) unchanged. -/
theorem cooldown_blocks_second_vote (s : BotState) (voter : Nat)
    (seller seller2 : String) (t0 t : Int) (s1 : BotState)
    (hvoted : handle_vote_button s voter seller t0 = Except.ok s1)
    (hreg : seller2 ∈ s1.trusted_sellers)
    (ht : t - t0 < 604800) :
    handle_vote_button s1 voter seller2 t =
      Except.error (VoteError.cooldownActive (max 1 ((604800 - (t - t0)) / 86400))) ∧
    voteRun s1 voter seller2 t = s1 := by
  have hs1 : s1 = voteSucc s voter seller t0 := handle_vote_button_ok hvoted
  have hlast : s1.last_vote_attempt voter = some t0 := by
    rw [hs1]
    simp [voteSucc]
  have h1 : handle_vote_button s1 voter seller2 t =
      Except.error (VoteError.cooldownActive (max 1 ((604800 - (t - t0)) / 86400))) := by
    simp only [handle_vote_button, if_pos hreg, hlast]
    rw [if_pos (by omega : (604800:Int) - (t - t0) > 0)]
  refine ⟨h1, ?_⟩
  unfold voteRun
  rw [h1]

/-- Witness for C5: voter 7 votes for `"@Seller1"` at time 1000 from the
initial state, then tries `"@Seller2"` at time 2000; the attempt fails with
6 days remaining and changes nothing. -/
theorem cooldown_blocks_second_vote_witness :
    handle_vote_button (voteSucc initState 7 "@Seller1" 1000) 7 "@Seller2" 2000 =
      Except.error (VoteError.cooldownActive (max 1 ((604800 - (2000 - 1000)) / 86400))) ∧
    voteRun (voteSucc initState 7 "@Seller1" 1000) 7 "@Seller2" 2000 =
      voteSucc initState 7 "@Seller1" 1000 :=
  cooldown_blocks_second_vote initState 7 "@Seller1" "@Seller2" 1000 2000
    (voteSucc initState 7 "@Seller1" 1000) rfl (by decide) (by decide)

/-- C6: for a registered seller and a voter whose cooldown has passed, a
button upvote succeeds and increments the seller's weekly and all-time
tallies by exactly 1, appends a `(now, +1)` delta to the monthly sequence,
appends an up-vote event to the seller's history, credits the voter exactly
5 points, and sets the voter's `lastVoteAt` to `now`. -/
theorem upvote_success_effects (s : BotState) (voter : Nat) (seller : String) (now : Int)
    (hreg : seller ∈ s.trusted_sellers)
    (hcool : ∀ t0, s.last_vote_attempt voter = some t0 → 604800 - (now - t0) ≤ 0) :
    handle_vote_button s voter seller now = Except.ok (voteSucc s voter seller now) ∧
    (voteSucc s voter seller now).votes_weekly seller = s.votes_weekly seller + 1 ∧
    (voteSucc s voter seller now).votes_alltime seller = s.votes_alltime seller + 1 ∧
    (voteSucc s voter seller now).votes_monthly seller =
      s.votes_monthly seller ++ [(now, 1)] ∧
    (voteSucc s voter seller now).vote_history seller =
      s.vote_history seller ++ [(voter, VoteDir.up, "Button vote", now)] ∧
    (voteSucc s voter seller now).user_points voter = s.user_points voter + 5 ∧
    (voteSucc s voter seller now).last_vote_attempt voter = some now := by
  refine ⟨?_, by simp [voteSucc], by simp [voteSucc], by simp [voteSucc],
    by simp [voteSucc], by simp [voteSucc], by simp [voteSucc]⟩
  cases hl : s.last_vote_attempt voter with
  | none => simp only [handle_vote_button, if_pos hreg, hl]
  | some t0 =>
    simp only [handle_vote_button, if_pos hreg, hl]
    rw [if_neg (by have := hcool t0 hl; omega : ¬ (604800:Int) - (now - t0) > 0)]

/-- Witness for C6: voter 7 upvotes `"@Seller1"` at time 1000 from the
initial state (no previous vote, so no cooldown). -/
theorem upvote_success_effects_witness :
    handle_vote_button initState 7 "@Seller1" 1000 =
      Except.ok (voteSucc initState 7 "@Seller1" 1000) ∧
    (voteSucc initState 7 "@Seller1" 1000).votes_weekly "@Seller1" =
      initState.votes_weekly "@Seller1" + 1 ∧
    (voteSucc initState 7 "@Seller1" 1000).votes_alltime "@Seller1" =
      initState.votes_alltime "@Seller1" + 1 ∧
    (voteSucc initState 7 "@Seller1" 1000).votes_monthly "@Seller1" =
      initState.votes_monthly "@Seller1" ++ [(1000, 1)] ∧
    (voteSucc initState 7 "@Seller1" 1000).vote_history "@Seller1" =
      initState.vote_history "@Seller1" ++ [(7, VoteDir.up, "Button vote", 1000)] ∧
    (voteSucc initState 7 "@Seller1" 1000).user_points 7 =
      initState.user_points 7 + 5 ∧
    (voteSucc initState 7 "@Seller1" 1000).last_vote_attempt 7 = some 1000 :=
  upvote_success_effects initState 7 "@Seller1" 1000 (by decide)
    (fun t0 h => Option.noConfusion h)

/-- C9: filing a complaint never checks the vendor tag against the seller
roster: for any tag (registered or not), with the complainant's cooldown
passed and a non-empty reason, `nepatiko` succeeds and stores a pending
complaint for the normalized tag, and approving it decrements that tag's
weekly and all-time tallies and appends a back-dated monthly `-1` delta --
creating tally entries even for a tag that was never registered. -/
theorem complaint_skips_registration (s : BotState) (user : Nat) (vendor reason : String)
    (now : Int)
    (hcool : complaintCooldownActive s user now = false)
    (hr : reason ≠ "") :
    nepatiko s user vendor reason now =
      Except.ok (s.complaint_id + 1, nepatikoSucc s user (normTag vendor) reason now) ∧
    (nepatikoSucc s user (normTag vendor) reason now).pending_downvotes (s.complaint_id + 1) =
      some (normTag vendor, user, reason, now) ∧
    approve (nepatikoSucc s user (normTag vendor) reason now) (s.complaint_id + 1) =
      Except.ok (approveSucc (nepatikoSucc s user (normTag vendor) reason now)
        (s.complaint_id + 1) (normTag vendor) user reason now) ∧
    (approveSucc (nepatikoSucc s user (normTag vendor) reason now)
        (s.complaint_id + 1) (normTag vendor) user reason now).votes_weekly (normTag vendor) =
      s.votes_weekly (normTag vendor) - 1 ∧
    (approveSucc (nepatikoSucc s user (normTag vendor) reason now)
        (s.complaint_id + 1) (normTag vendor) user reason now).votes_alltime (normTag vendor) =
      s.votes_alltime (normTag vendor) - 1 ∧
    (approveSucc (nepatikoSucc s user (normTag vendor) reason now)
        (s.complaint_id + 1) (normTag vendor) user reason now).votes_monthly (normTag vendor) =
      s.votes_monthly (normTag vendor) ++ [(now, -1)] := by
  have h0 : nepatiko s user vendor reason now =
      Except.ok (s.complaint_id + 1, nepatikoSucc s user (normTag vendor) reason now) := by
    simp [nepatiko, hcool, hr]
  have h1 : (nepatikoSucc s user (normTag vendor) reason now).pending_downvotes
      (s.complaint_id + 1) = some (normTag vendor, user, reason, now) := by
    simp [nepatikoSucc]
  have h2 : approve (nepatikoSucc s user (normTag vendor) reason now) (s.complaint_id + 1) =
      Except.ok (approveSucc (nepatikoSucc s user (normTag vendor) reason now)
        (s.complaint_id + 1) (normTag vendor) user reason now) := by
    unfold approve
    rw [h1]
  exact ⟨h0, h1, h2, by simp [approveSucc, nepatikoSucc], by simp [approveSucc, nepatikoSucc],
    by simp [approveSucc, nepatikoSucc]⟩

/-- Witness for C9: user 7 complains about `"NotASeller"` (normalized to
`"@NotASeller"`, which is not on the roster of the initial state); the
complaint is filed and its approval drives the unregistered tag's tallies
to -1. -/
theorem complaint_skips_registration_witness :
    "@NotASeller" ∉ initState.trusted_sellers ∧
    (nepatiko initState 7 "NotASeller" "bad" 100 =
      Except.ok (initState.complaint_id + 1,
        nepatikoSucc initState 7 (normTag "NotASeller") "bad" 100) ∧
    (nepatikoSucc initState 7 (normTag "NotASeller") "bad" 100).pending_downvotes
      (initState.complaint_id + 1) = some (normTag "NotASeller", 7, "bad", 100) ∧
    approve (nepatikoSucc initState 7 (normTag "NotASeller") "bad" 100)
        (initState.complaint_id + 1) =
      Except.ok (approveSucc (nepatikoSucc initState 7 (normTag "NotASeller") "bad" 100)
        (initState.complaint_id + 1) (normTag "NotASeller") 7 "bad" 100) ∧
    (approveSucc (nepatikoSucc initState 7 (normTag "NotASeller") "bad" 100)
        (initState.complaint_id + 1) (normTag "NotASeller") 7 "bad" 100).votes_weekly
        (normTag "NotASeller") =
      initState.votes_weekly (normTag "NotASeller") - 1 ∧
    (approveSucc (nepatikoSucc initState 7 (normTag "NotASeller") "bad" 100)
        (initState.complaint_id + 1) (normTag "NotASeller") 7 "bad" 100).votes_alltime
        (normTag "NotASeller") =
      initState.votes_alltime (normTag "NotASeller") - 1 ∧
    (approveSucc (nepatikoSucc initState 7 (normTag "NotASeller") "bad" 100)
        (initState.complaint_id + 1) (normTag "NotASeller") 7 "bad" 100).votes_monthly
        (normTag "NotASeller") =
      initState.votes_monthly (normTag "NotASeller") ++ [(100, -1)]) :=
  ⟨by decide, complaint_skips_registration initState 7 "NotASeller" "bad" 100 rfl (by decide)⟩

/-- C10: proposing a coinflip fails when the resolved target's balance is
below the wager, even when the amount is positive, the initiator can cover
it, and the target resolves to a distinct existing user; the failed proposal
stores no challenge and schedules no expiry callback (the state is
unchanged). -/
theorem coinflip_target_balance_check (s : BotState) (i tid : Nat) (iu o : String)
    (a now chat : Int)
    (ha : 0 < a) (hi : a ≤ s.user_points i)
    (hres : s.username_to_id (lowerStr o) = some tid)
    (htid : tid ≠ 0) (hdist : o ≠ iu)
    (htgt : s.user_points tid < a) :
    coinflip s i iu a o now chat = Except.error CoinflipError.targetInsufficient ∧
    coinflipRun s i iu a o now chat = s ∧
    (coinflipRun s i iu a o now chat).coinflip_challenges tid = s.coinflip_challenges tid ∧
    (coinflipRun s i iu a o now chat).scheduled_expiries = s.scheduled_expiries := by
  have h1 : coinflip s i iu a o now chat = Except.error CoinflipError.targetInsufficient := by
    simp only [coinflip, hres]
    rw [if_neg (by omega : ¬ (a ≤ 0 ∨ s.user_points i < a))]
    rw [if_neg (by simp [htid, hdist] : ¬ (tid = 0 ∨ o = iu))]
    rw [if_pos htgt]
  have h2 : coinflipRun s i iu a o now chat = s := by
    unfold coinflipRun
    rw [h1]
  exact ⟨h1, h2, by rw [h2], by rw [h2]⟩

/-- Witness for C10: user 1 (100 points) challenges `"@bob"` (user 2, only 5
points) for 10 points; the proposal is refused and nothing changes. -/
theorem coinflip_target_balance_check_witness :
    coinflip c10State 1 "@alice" 10 "@bob" 0 5 =
      Except.error CoinflipError.targetInsufficient ∧
    coinflipRun c10State 1 "@alice" 10 "@bob" 0 5 = c10State ∧
    (coinflipRun c10State 1 "@alice" 10 "@bob" 0 5).coinflip_challenges 2 =
      c10State.coinflip_challenges 2 ∧
    (coinflipRun c10State 1 "@alice" 10 "@bob" 0 5).scheduled_expiries =
      c10State.scheduled_expiries :=
  coinflip_target_balance_check c10State 1 2 "@alice" "@bob" 10 0 5 (by decide) (by decide)
    (by decide) (by decide) (by decide) (by decide)

/-- C2 counterexample: the complaint-id counter is NOT process-wide monotonic
and ids ARE reused.  From the initial state, user 7's complaint gets id 1;
the weekly `reset_votes` job then zeroes the counter, and user 8's later,
distinct complaint gets id 1 again -- two distinct complaints sharing one
id. -/
theorem complaint_id_reuse_counterexample :
    allocatedId (nepatiko initState 7 "@v1" "r1" 100) = some 1 ∧
    (reset_votes (nepatikoSucc initState 7 "@v1" "r1" 100)).complaint_id = 0 ∧
    allocatedId
      (nepatiko (reset_votes (nepatikoSucc initState 7 "@v1" "r1" 100)) 8 "@v2" "r2" 200) =
      some 1 ∧
    (nepatikoSucc initState 7 "@v1" "r1" 100).pending_downvotes 1 =
      some ("@v1", 7, "r1", 100) ∧
    (nepatikoSucc (reset_votes (nepatikoSucc initState 7 "@v1" "r1" 100))
        8 "@v2" "r2" 200).pending_downvotes 1 = some ("@v2", 8, "r2", 200) ∧
    (("@v1", 7, "r1", (100 : Int)) : PendingEntry) ≠ ("@v2", 8, "r2", (200 : Int)) := by
  decide

/-- C2 amended: the complaint-id counter is monotonic only between weekly
resets: every successful `nepatiko` allocates `counter + 1` and stores it as
the new counter; the counter starts at 0 (so the first allocated id is 1);
but the weekly `reset_votes` job sets the counter back to 0, after which ids
are reused. -/
theorem complaint_id_counter :
    (∀ s u v r now cid s1, nepatiko s u v r now = Except.ok (cid, s1) →
      cid = s.complaint_id + 1 ∧ s1.complaint_id = s.complaint_id + 1) ∧
    (∀ s, (reset_votes s).complaint_id = 0) ∧
    initState.complaint_id = 0 := by
  refine ⟨?_, fun s => rfl, rfl⟩
  intro s u v r now cid s1 h
  obtain ⟨hcid, hs1⟩ := nepatiko_ok h
  refine ⟨hcid, ?_⟩
  rw [hs1]
  rfl

/-- Witness for C2 (amended): the first complaint from the initial state gets
id `0 + 1 = 1`, and the reset zeroes the counter. -/
theorem complaint_id_counter_witness :
    (1 = initState.complaint_id + 1 ∧
      (nepatikoSucc initState 7 "@v1" "r1" 100).complaint_id = initState.complaint_id + 1) ∧
    (reset_votes (nepatikoSucc initState 7 "@v1" "r1" 100)).complaint_id = 0 :=
  ⟨complaint_id_counter.1 initState 7 "@v1" "r1" 100 1
      (nepatikoSucc initState 7 "@v1" "r1" 100) rfl,
    complaint_id_counter.2.1 (nepatikoSucc initState 7 "@v1" "r1" 100)⟩

/-- C3: for a proposed wager between distinct initiator and target, an
acceptance within the window and in the originating chat resolves it: for
either value of the coin oracle, exactly one of the two gains the amount and
the other loses it, the sum of the two balances equals its value before the
challenge was proposed, and the challenge entry is deleted. -/
theorem wager_zero_sum (s0 : BotState) (i tid : Nat) (iu o : String) (a : Int)
    (now0 chat now : Int) (s1 : BotState) (coin : Bool)
    (hok : coinflip s0 i iu a o now0 chat = Except.ok s1)
    (hres : s0.username_to_id (lowerStr o) = some tid)
    (hne : i ≠ tid)
    (hexp : ¬ now - now0 > 300) :
    (accept_coinflip s1 tid now chat coin).1 =
      AcceptOutcome.resolved (if coin then i else tid) ∧
    (accept_coinflip s1 tid now chat coin).2.user_points i +
        (accept_coinflip s1 tid now chat coin).2.user_points tid =
      s0.user_points i + s0.user_points tid ∧
    (accept_coinflip s1 tid now chat coin).2.user_points (if coin then i else tid) =
      s0.user_points (if coin then i else tid) + a ∧
    (accept_coinflip s1 tid now chat coin).2.user_points (if coin then tid else i) =
      s0.user_points (if coin then tid else i) - a ∧
    (accept_coinflip s1 tid now chat coin).2.coinflip_challenges tid = none := by
  have hne' : tid ≠ i := Ne.symm hne
  have hs1 : s1 = coinflipSucc s0 i iu a o tid now0 chat := by
    unfold coinflip at hok
    split at hok
    · simp at hok
    · simp only [hres] at hok
      split at hok
      · simp at hok
      · split at hok
        · simp at hok
        · simp only [Except.ok.injEq] at hok
          exact hok.symm
  subst hs1
  have hc : (coinflipSucc s0 i iu a o tid now0 chat).coinflip_challenges tid =
      some ⟨i, a, now0, iu, o, chat⟩ := by
    simp [coinflipSucc]
  have hpts : (coinflipSucc s0 i iu a o tid now0 chat).user_points = s0.user_points := rfl
  simp only [accept_coinflip, hc]
  rw [if_neg (by simp [hexp] : ¬ (now - now0 > 300 ∨ chat ≠ chat))]
  cases coin <;>
    simp [acceptResolveSucc, hpts, fupd, hne, hne']

/-- Witness for C3 at the concrete proposal of `cfAfterPropose` (user 1
challenges user 2 for 10 points; the coin favours the initiator). -/
theorem wager_zero_sum_witness :
    (accept_coinflip cfAfterPropose 2 100 5 true).1 =
      AcceptOutcome.resolved (if true then 1 else 2) ∧
    (accept_coinflip cfAfterPropose 2 100 5 true).2.user_points 1 +
        (accept_coinflip cfAfterPropose 2 100 5 true).2.user_points 2 =
      cfDemoState.user_points 1 + cfDemoState.user_points 2 ∧
    (accept_coinflip cfAfterPropose 2 100 5 true).2.user_points (if true then 1 else 2) =
      cfDemoState.user_points (if true then 1 else 2) + 10 ∧
    (accept_coinflip cfAfterPropose 2 100 5 true).2.user_points (if true then 2 else 1) =
      cfDemoState.user_points (if true then 2 else 1) - 10 ∧
    (accept_coinflip cfAfterPropose 2 100 5 true).2.coinflip_challenges 2 = none :=
  wager_zero_sum cfDemoState 1 2 "@alice" "@bob" 10 0 5 100 cfAfterPropose true rfl rfl
    (by decide) (by decide)

/-- Each tally-relevant operation preserves the all-time tally accounting:
the all-time tally of every seller stays equal to the ghost sum of applied
vote deltas plus admin adjustments (both counted since the seller's last
removal). -/
theorem tallyInv_applyOpG {g : GTally} (hg : tallyInv g) (op : BotOp) :
    tallyInv (applyOpG g op) := by
  cases op with
  | upvote v se now =>
    simp only [applyOpG]
    split
    · exact hg
    · rename_i s1 heq
      intro S
      have hb := handle_vote_button_ok heq
      subst hb
      have hS0 := hg S
      by_cases hS : S = se
      · subst hS
        simp only [voteSucc, fupd_same]
        omega
      · simpa [voteSucc, fupd, hS] using hS0
  | fileComplaint u ve r now =>
    simp only [applyOpG]
    split
    · exact hg
    · rename_i cid s1 heq
      intro S
      have hb := (nepatiko_ok heq).2
      subst hb
      simpa [nepatikoSucc] using hg S
  | approveC cid =>
    simp only [applyOpG]
    split
    · exact hg
    · rename_i v u r ts heq
      intro S
      have hS0 := hg S
      by_cases hS : S = v
      · subst hS
        simp only [approveSucc, fupd_same]
        omega
      · simpa [approveSucc, fupd, hS] using hS0
  | adminAdjust se amt =>
    simp only [applyOpG]
    split
    · exact hg
    · rename_i s1 heq
      intro S
      have hb := pridetitaskus_ok heq
      subst hb
      have hS0 := hg S
      by_cases hS : S = normTag se
      · subst hS
        simp only [pridetitaskusSucc, fupd_same]
        omega
      · simpa [pridetitaskusSucc, fupd, hS] using hS0
  | addSellerOp ve =>
    simp only [applyOpG]
    split
    · exact hg
    · rename_i s1 heq
      intro S
      have hb := addseller_ok heq
      subst hb
      exact hg S
  | removeSellerOp ve =>
    simp only [applyOpG]
    split
    · exact hg
    · rename_i s1 heq
      intro S
      have hb := removeseller_ok heq
      subst hb
      have hS0 := hg S
      by_cases hS : S = normTag ve
      · subst hS
        simp [removesellerSucc]
      · simpa [removesellerSucc, fupd, hS] using hS0
  | weeklyReset =>
    intro S
    exact hg S

/-- C1 amended: after any sequence of operations from the initial state, each
seller's all-time tally equals the signed sum of the approved vote deltas
(+1 per successful upvote, -1 per approved complaint) PLUS the admin
adjustment amounts applied by `pridetitaskus`, both counted since the
seller's tallies were last deleted by a seller removal (which resets the
tally to the dict default 0). -/
theorem alltime_tally_invariant (ops : List BotOp) : tallyInv (runOpsG ops) := by
  have hfold : ∀ l g, tallyInv g → tallyInv (List.foldl applyOpG g l) := by
    intro l
    induction l with
    | nil => exact fun g hg => hg
    | cons op rest ih => exact fun g hg => ih _ (tallyInv_applyOpG hg op)
  exact hfold ops gInit (fun S => rfl)

/-- C1 counterexample: a single admin adjustment `pridetitaskus "@Seller1" 3`
from the initial state drives `allTime("@Seller1")` to 3 although no vote
delta (upvote or approved complaint) was ever applied, so the claimed
equation `allTime(S) = signed sum of approved vote deltas` reads `3 = 0`
and fails. -/
theorem alltime_tally_counterexample :
    (applyOpG gInit (BotOp.adminAdjust "@Seller1" 3)).base.votes_alltime "@Seller1" = 3 ∧
    (applyOpG gInit (BotOp.adminAdjust "@Seller1" 3)).deltaSum "@Seller1" = 0 ∧
    (3 : Int) ≠ 0 := by
  decide

/-- Storing a fresh id keeps all stored ids below the bumped counter. -/
theorem fupd_fresh_lt {st : Nat → Option Nat} {n : Nat} (tid : Nat)
    (hlt : ∀ t i, st t = some i → i < n) :
    ∀ t i, fupd st tid (some n) t = some i → i < n + 1 := by
  intro t i hi
  by_cases ht : t = tid
  · subst ht
    rw [fupd_same] at hi
    injection hi with hi
    omega
  · rw [fupd_other _ _ _ ht] at hi
    have := hlt t i hi
    omega

/-- Storing a fresh id keeps the stored map injective on ids. -/
theorem fupd_fresh_inj {st : Nat → Option Nat} {n : Nat} (tid : Nat)
    (hlt : ∀ t i, st t = some i → i < n)
    (hinj : ∀ t1 t2 i, st t1 = some i → st t2 = some i → t1 = t2) :
    ∀ t1 t2 i, fupd st tid (some n) t1 = some i → fupd st tid (some n) t2 = some i →
      t1 = t2 := by
  intro t1 t2 i h1 h2
  by_cases h1t : t1 = tid <;> by_cases h2t : t2 = tid
  · rw [h1t, h2t]
  · subst h1t
    rw [fupd_same] at h1
    rw [fupd_other _ _ _ h2t] at h2
    injection h1 with h1
    have := hlt t2 i h2
    omega
  · subst h2t
    rw [fupd_same] at h2
    rw [fupd_other _ _ _ h1t] at h1
    injection h2 with h2
    have := hlt t1 i h1
    omega
  · rw [fupd_other _ _ _ h1t] at h1
    rw [fupd_other _ _ _ h2t] at h2
    exact hinj t1 t2 i h1 h2

/-- `CFInv` ignores the underlying bot state. -/
theorem CFInv_base {g : GhostCF} (hg : CFInv g) (s1 : BotState) :
    CFInv { g with base := s1 } :=
  ⟨hg.stored_lt, hg.stored_inj, hg.removed_lt, hg.removed_nodup,
    hg.stored_not_removed, hg.accounted⟩

/-- Storing a fresh instance (logging any overwritten one) preserves the
resolution accounting. -/
theorem CFInv_ghostApplyStore {g : GhostCF} (hg : CFInv g) (s1 : BotState) (tid : Nat) :
    CFInv (ghostApplyStore g s1 tid) := by
  obtain ⟨hlt, hinj, hrlt, hnd, hsnr, hacc⟩ := hg
  have hstored : (ghostApplyStore g s1 tid).stored = fupd g.stored tid (some g.nextInst) :=
    rfl
  have hnext : (ghostApplyStore g s1 tid).nextInst = g.nextInst + 1 := rfl
  cases hold : g.stored tid with
  | some old =>
    have hrm : removedIds (ghostApplyStore g s1 tid) = old :: removedIds g := by
      simp [removedIds, ghostApplyStore, hold]
    have holdlt : old < g.nextInst := hlt tid old hold
    have holdnr : old ∉ removedIds g := hsnr tid old hold
    refine ⟨?_, ?_, ?_, ?_, ?_, ?_⟩
    · rw [hstored, hnext]
      exact fupd_fresh_lt tid hlt
    · rw [hstored]
      exact fupd_fresh_inj tid hlt hinj
    · intro j hj
      rw [hrm] at hj
      rw [hnext]
      rcases List.mem_cons.mp hj with h | h
      · omega
      · have := hrlt j h
        omega
    · rw [hrm]
      exact List.nodup_cons.mpr ⟨holdnr, hnd⟩
    · intro t j hj
      rw [hstored] at hj
      rw [hrm]
      by_cases ht : t = tid
      · subst ht
        rw [fupd_same] at hj
        injection hj with hj
        subst hj
        intro hmem
        rcases List.mem_cons.mp hmem with h | h
        · omega
        · have := hrlt _ h
          omega
      · rw [fupd_other _ _ _ ht] at hj
        intro hmem
        rcases List.mem_cons.mp hmem with h | h
        · subst h
          exact ht (hinj t tid j hj hold)
        · exact hsnr t j hj h
    · intro j hj
      rw [hnext] at hj
      rw [hstored, hrm]
      by_cases hje : j = g.nextInst
      · subst hje
        exact Or.inl ⟨tid, by rw [fupd_same]⟩
      · rcases hacc j (by omega) with ⟨t, ht⟩ | hmem
        · by_cases htid : t = tid
          · subst htid
            rw [hold] at ht
            injection ht with ht
            exact Or.inr (List.mem_cons.mpr (Or.inl ht.symm))
          · exact Or.inl ⟨t, by rw [fupd_other _ _ _ htid]; exact ht⟩
        · exact Or.inr (List.mem_cons_of_mem _ hmem)
  | none =>
    have hrm : removedIds (ghostApplyStore g s1 tid) = removedIds g := by
      simp [removedIds, ghostApplyStore, hold]
    refine ⟨?_, ?_, ?_, ?_, ?_, ?_⟩
    · rw [hstored, hnext]
      exact fupd_fresh_lt tid hlt
    · rw [hstored]
      exact fupd_fresh_inj tid hlt hinj
    · intro j hj
      rw [hrm] at hj
      rw [hnext]
      have := hrlt j hj
      omega
    · rw [hrm]
      exact hnd
    · intro t j hj
      rw [hstored] at hj
      rw [hrm]
      by_cases ht : t = tid
      · subst ht
        rw [fupd_same] at hj
        injection hj with hj
        subst hj
        intro hmem
        have := hrlt _ hmem
        omega
      · rw [fupd_other _ _ _ ht] at hj
        exact hsnr t j hj
    · intro j hj
      rw [hnext] at hj
      rw [hstored, hrm]
      by_cases hje : j = g.nextInst
      · subst hje
        exact Or.inl ⟨tid, by rw [fupd_same]⟩
      · rcases hacc j (by omega) with ⟨t, ht⟩ | hmem
        · by_cases htid : t = tid
          · subst htid
            rw [hold] at ht
            exact absurd ht (by simp)
          · exact Or.inl ⟨t, by rw [fupd_other _ _ _ htid]; exact ht⟩
        · exact Or.inr hmem

/-- Deleting and logging a stored instance preserves the resolution
accounting. -/
theorem CFInv_ghostRemove {g : GhostCF} (hg : CFInv g) (s1 : BotState) (t i : Nat)
    (c : RemovalCause) (hsi : g.stored t = some i) :
    CFInv (ghostRemove g s1 t i c) := by
  obtain ⟨hlt, hinj, hrlt, hnd, hsnr, hacc⟩ := hg
  have hstored : (ghostRemove g s1 t i c).stored = fupd g.stored t none := rfl
  have hnext : (ghostRemove g s1 t i c).nextInst = g.nextInst := rfl
  have hrm : removedIds (ghostRemove g s1 t i c) = i :: removedIds g := rfl
  refine ⟨?_, ?_, ?_, ?_, ?_, ?_⟩
  · intro t' j hj
    rw [hstored] at hj
    rw [hnext]
    by_cases ht : t' = t
    · subst ht
      rw [fupd_same] at hj
      exact absurd hj (by simp)
    · rw [fupd_other _ _ _ ht] at hj
      exact hlt t' j hj
  · intro t1 t2 j h1 h2
    rw [hstored] at h1 h2
    by_cases h1t : t1 = t
    · subst h1t
      rw [fupd_same] at h1
      exact absurd h1 (by simp)
    · by_cases h2t : t2 = t
      · subst h2t
        rw [fupd_same] at h2
        exact absurd h2 (by simp)
      · rw [fupd_other _ _ _ h1t] at h1
        rw [fupd_other _ _ _ h2t] at h2
        exact hinj t1 t2 j h1 h2
  · intro j hj
    rw [hrm] at hj
    rw [hnext]
    rcases List.mem_cons.mp hj with h | h
    · subst h
      exact hlt t j hsi
    · exact hrlt j h
  · rw [hrm]
    exact List.nodup_cons.mpr ⟨hsnr t i hsi, hnd⟩
  · intro t' j hj
    rw [hstored] at hj
    rw [hrm]
    by_cases ht : t' = t
    · subst ht
      rw [fupd_same] at hj
      exact absurd hj (by simp)
    · rw [fupd_other _ _ _ ht] at hj
      intro hmem
      rcases List.mem_cons.mp hmem with h | h
      · subst h
        exact ht (hinj t' t j hj hsi)
      · exact hsnr t' j hj h
  · intro j hj
    rw [hnext] at hj
    rw [hstored, hrm]
    rcases hacc j hj with ⟨t', ht'⟩ | hmem
    · by_cases ht : t' = t
      · subst ht
        rw [hsi] at ht'
        injection ht' with ht'
        exact Or.inr (List.mem_cons.mpr (Or.inl ht'.symm))
      · exact Or.inl ⟨t', by rw [fupd_other _ _ _ ht]; exact ht'⟩
    · exact Or.inr (List.mem_cons_of_mem _ hmem)

/-- Every event preserves the resolution accounting. -/
theorem cfInv_ghostStep {g : GhostCF} (hg : CFInv g) (e : CFEvent) :
    CFInv (ghostStep g e) := by
  cases e with
  | propose i iu a o now chat =>
    simp only [ghostStep]
    split
    · exact hg
    · split
      · exact CFInv_base hg _
      · exact CFInv_ghostApplyStore hg _ _
  | accept u now chat coin =>
    simp only [ghostStep]
    split
    · rename_i w i heq1 heq2
      exact CFInv_ghostRemove hg _ u i _ heq2
    · rename_i i heq1 heq2
      exact CFInv_ghostRemove hg _ u i _ heq2
    · exact CFInv_base hg _
  | expireCb t =>
    simp only [ghostStep]
    split
    · rename_i c i heq1 heq2
      exact CFInv_ghostRemove hg _ t i _ heq2
    · exact CFInv_base hg _

/-- C8 amended: along any event trace, a stored challenge instance is removed
at most once, a still-stored instance has never been removed, and every
instance ever created is either still stored or logged exactly once with one
of four removal causes: resolution by acceptance, deletion by a failed
acceptance (expired or wrong chat), deletion by the expiry callback, or
silent overwrite by a newer proposal for the same target.  Acceptance and
expiry-callback deletion are therefore not the only ways an instance can
disappear. -/
theorem challenge_resolution_accounting (s : BotState) (evs : List CFEvent) :
    CFInv (ghostRunFrom s evs) := by
  have hfold : ∀ l g, CFInv g → CFInv (List.foldl ghostStep g l) := by
    intro l
    induction l with
    | nil => exact fun g hg => hg
    | cons e rest ih => exact fun g hg => ih _ (cfInv_ghostStep hg e)
  refine hfold evs (ghostInit s) ⟨?_, ?_, ?_, ?_, ?_, ?_⟩ <;>
    simp [ghostInit, removedIds]

/-- C8 counterexample: in the concrete run `cfDemoEvents`, instance 0 (user
1's challenge to user 2) is stored after the first proposal, is gone at the
end, yet was never resolved by acceptance or expiry-callback deletion -- it
was silently overwritten by user 3's later challenge for the same target
(and instance 1 is the one acceptance resolved). -/
theorem challenge_overwrite_counterexample :
    (ghostRunFrom cfDemoState [CFEvent.propose 1 "@alice" 10 "@bob" 0 5]).stored 2 =
      some 0 ∧
    (ghostRunFrom cfDemoState cfDemoEvents).stored 2 = none ∧
    (ghostRunFrom cfDemoState cfDemoEvents).removals =
      [(1, RemovalCause.acceptedResolved), (0, RemovalCause.overwritten)] ∧
    (0, RemovalCause.acceptedResolved) ∉ (ghostRunFrom cfDemoState cfDemoEvents).removals ∧
    (0, RemovalCause.expiryCbDeleted) ∉ (ghostRunFrom cfDemoState cfDemoEvents).removals := by
  decide
